import Mathlib

/-!
Verification of the `hugetop` utility (file `src/uu/hugetop/src/hugetop.rs`).

The file-system reads of the original program are shallowly embedded: each
function that reads directories or files is modelled as a pure function over
the directory listing / file contents it would have read.  Machine integers
(`u32`, `u64`) are modelled as `Nat` together with the explicit bound checks
that Rust's `str::parse` performs.  The Rust string primitives used by the
program (`trim`, `split`, `replace`, `lines`) are modelled as structurally
recursive functions on `List Char` so that every definition evaluates.  A Rust
`panic!` or `unwrap` failure (process abort) is kept distinct from a returned
`Err` value via the `RunResult` type.
-/

namespace Hugetop

/-- Mapping record produced by the external smaps parser
(`uu_pmap::smaps_format_parser::SmapEntry`), restricted to the three fields
that `hugetop.rs` reads (the spec's `MappingEntry`). -/
structure SmapEntry where
  kernel_page_size_in_kb : Nat
  private_hugetlb_in_kb : Nat
  shared_hugetlb_in_kb : Nat
  deriving DecidableEq

/-- `struct HugePageSizeInfo` (hugetop.rs lines 28–33): one record per
huge-page pool size, the spec's `PoolEntry`. -/
structure HugePageSizeInfo where
  size_kb : Nat
  free : Nat
  total : Nat
  deriving DecidableEq

/-- `struct ProcessHugepageInfo` (hugetop.rs lines 21–26): the spec's
`ProcessHugepageReport`. -/
structure ProcessHugepageInfo where
  pid : Nat
  name : String
  entries : List SmapEntry
  deriving DecidableEq

/-- Rust `str::trim`: remove leading and trailing whitespace characters. -/
def rust_trim (cs : List Char) : List Char :=
  ((cs.dropWhile Char.isWhitespace).reverse.dropWhile Char.isWhitespace).reverse

/-- Rust `str::split` with a one-character pattern: the list of segments
between occurrences of `c`, keeping empty segments (`"a--b"` gives
`["a", "", "b"]`, `""` gives `[""]`). -/
def split_on_char (c : Char) : List Char → List (List Char)
  | [] => [[]]
  | x :: xs =>
    if x = c then [] :: split_on_char c xs
    else
      match split_on_char c xs with
      | [] => [[x]]
      | seg :: segs => (x :: seg) :: segs

/-- Rust `str::replace("kB", "")` as called in `parse_hugepage`: delete every
(non-overlapping, leftmost-first) occurrence of the two-character pattern
`kB`. -/
def remove_kb : List Char → List Char
  | 'k' :: 'B' :: rest => remove_kb rest
  | c :: rest => c :: remove_kb rest
  | [] => []

/-- Decimal digits to value, `none` when empty or any non-digit occurs.
Helper for the Rust `str::parse::<uN>` model. -/
def parse_digits (cs : List Char) : Option Nat :=
  if cs = [] then none
  else if cs.all Char.isDigit then
    some (cs.foldl (fun acc c => acc * 10 + (c.toNat - 48)) 0)
  else none

/-- Rust `str::parse` for an unsigned integer type with exclusive upper bound
`bound` (`2^32` for `u32`, `2^64` for `u64`): an optional leading `+`, then one
or more ASCII digits, and the value must fit in the type. -/
def rust_parse_unsigned (bound : Nat) (cs : List Char) : Option Nat :=
  let digits :=
    match cs with
    | '+' :: rest => rest
    | cs => cs
  match parse_digits digits with
  | some n => if n < bound then some n else none
  | none => none

/-- Exclusive bound of `u64`. -/
def U64_BOUND : Nat := 2 ^ 64

/-- Exclusive bound of `u32`. -/
def U32_BOUND : Nat := 2 ^ 32

/-- One subdirectory of `/sys/kernel/mm/hugepages`, given by its name and the
contents of its two page-count files (the file reads of `parse_hugepage` are
embedded as these already-read contents). -/
structure PoolDirEntry where
  file_name : String
  nr_hugepages : String
  free_hugepages : String
  deriving DecidableEq

/-- Outcome of a code path that can abort the process (`crash`, from
`unwrap`/`panic!` in the source), return an error value (`error`), or
succeed. -/
inductive RunResult (α : Type) where
  | crash : RunResult α
  | error : RunResult α
  | ok : α → RunResult α
  deriving DecidableEq

/-- The `parse_hugepage_value` closure (hugetop.rs lines 48–55): trim the file
contents and parse as `u64`; a parse failure becomes an `InvalidData` error
(here `none`). -/
def parse_hugepage_value (content : String) : Option Nat :=
  rust_parse_unsigned U64_BOUND (rust_trim content.toList)

/-- The body of `parse_hugepage`'s loop for one directory entry (hugetop.rs
lines 61–85): parse `nr_hugepages`, then `free_hugepages`, then decode the
size from the directory name via `split("-").nth(1).unwrap()` — the `unwrap`
aborts the process (`crash`) when the name has no `-` separator — followed by
`replace("kB", "")` and a `u64` parse whose failure is an `InvalidData`
error. -/
def parse_pool_entry (e : PoolDirEntry) : RunResult HugePageSizeInfo :=
  match parse_hugepage_value e.nr_hugepages with
  | none => .error
  | some total =>
    match parse_hugepage_value e.free_hugepages with
    | none => .error
    | some free =>
      match (split_on_char '-' e.file_name.toList).get? 1 with
      | none => .crash
      | some seg =>
        match rust_parse_unsigned U64_BOUND (remove_kb seg) with
        | none => .error
        | some size => .ok ⟨size, free, total⟩

/-- `parse_hugepage` (hugetop.rs lines 47–88) over the already-read directory
listing: any per-entry failure aborts the whole read. -/
def parse_hugepage : List PoolDirEntry → RunResult (List HugePageSizeInfo)
  | [] => .ok []
  | e :: rest =>
    match parse_pool_entry e with
    | .crash => .crash
    | .error => .error
    | .ok info =>
      match parse_hugepage rest with
      | .crash => .crash
      | .error => .error
      | .ok infos => .ok (info :: infos)

/-- The `match self.size_kb` arm of `impl Display for HugePageSizeInfo`
(hugetop.rs lines 37–41): `none` models the `panic!` arm taken for any size
other than 2048 and 1048576. -/
def hugepage_size_label (size_kb : Nat) : Option String :=
  match size_kb with
  | 2048 => some "2Mi"
  | 1048576 => some "1Gi"
  | _ => none

/-- `impl Display for HugePageSizeInfo` (hugetop.rs lines 35–45):
`write!(f, "{} - {}/{}", size_str, self.free, self.total)`, or `none` when the
label match panics. -/
def hugepage_size_display (info : HugePageSizeInfo) : Option String :=
  (hugepage_size_label info.size_kb).map
    (fun s => s ++ " - " ++ toString info.free ++ "/" ++ toString info.total)

/-- Rust `str::lines` strips one trailing carriage return from each line;
helper for the first-line extraction in `parse_process_info`. -/
def drop_last_cr : List Char → List Char
  | [] => []
  | ['\r'] => []
  | c :: rest => c :: drop_last_cr rest

/-- The filter step of `parse_process_info` (hugetop.rs lines 110–113): keep
exactly the smaps entries with `kernel_page_size_in_kb >= 2024` (the source's
literal threshold constant), in order. -/
def hugepage_filter (entries : List SmapEntry) : List SmapEntry :=
  entries.filter (fun entry => 2024 ≤ entry.kernel_page_size_in_kb)

/-- One `/proc` directory entry as seen by `parse_process_info`: its file
name, and the contents of its `status` and `smaps` files (`none` models a
failed `fs::read_to_string`). -/
structure ProcDirEntry where
  file_name : String
  status : Option String
  smaps : Option String
  deriving DecidableEq

/-- `parse_process_info` (hugetop.rs lines 90–124).  The external smaps
parser `uu_pmap::parse_smap_entries` (whose source is outside this crate's
`src/`) is passed in as a function; `none` models its `Err` case, which
`.ok()?` turns into a skip.  The steps, in source order: parse the file name
as a `u32` pid (skip on failure), read `status` and take the value after the
first `:` of its first line as the trimmed display name, read and parse
`smaps` (skip on failure), filter to huge pages, and skip the process when
the filtered list is empty. -/
def parse_process_info (parse_smap_entries : String → Option (List SmapEntry))
    (p : ProcDirEntry) : Option ProcessHugepageInfo :=
  match rust_parse_unsigned U32_BOUND p.file_name.toList with
  | none => none
  | some pid =>
    match p.status with
    | none => none
    | some st =>
      let first_line := drop_last_cr ((split_on_char '\n' st.toList).getD 0 [])
      let name := String.mk (rust_trim ((split_on_char ':' first_line).getD 1 []))
      match p.smaps with
      | none => none
      | some contents =>
        match parse_smap_entries contents with
        | none => none
        | some smap_entries =>
          let filtered := hugepage_filter smap_entries
          if filtered.isEmpty then none
          else some ⟨pid, name, filtered⟩

/-- `parse_process_hugepages` (hugetop.rs lines 127–139) over the
already-enumerated `/proc` listing: collect the reports of the entries for
which `parse_process_info` returns `Some`, in order. -/
def parse_process_hugepages
    (parse_smap_entries : String → Option (List SmapEntry))
    (entries : List ProcDirEntry) : List ProcessHugepageInfo :=
  entries.filterMap (parse_process_info parse_smap_entries)

/-- Rust's format specifier with a left-aligned minimum width, as in
`"{:<8}"`: pad on the right with spaces up to `w` characters. -/
def pad_left_align (w : Nat) (s : String) : String :=
  s ++ String.mk (List.replicate (w - s.length) ' ')

/-- The header line of `format_process_str` (hugetop.rs lines 184–187),
naming the four fixed columns PID, Private, Shared, Process. -/
def header_row : String :=
  pad_left_align 8 "PID" ++ " " ++ pad_left_align 12 "Private" ++ " " ++
    pad_left_align 12 "Shared" ++ " " ++ pad_left_align 12 "Process" ++ "\n"

/-- One table line of `format_process_str`'s inner loop (hugetop.rs lines
193–199): the process's pid, the entry's private and shared huge-TLB
counters, and the process's name. -/
def process_row (pid : Nat) (name : String) (entry : SmapEntry) : String :=
  pad_left_align 8 (toString pid) ++ " " ++
    pad_left_align 12 (toString entry.private_hugetlb_in_kb) ++ " " ++
    pad_left_align 12 (toString entry.shared_hugetlb_in_kb) ++ " " ++
    pad_left_align 12 name ++ "\n"

/-- `format_process_str` (hugetop.rs lines 182–204): push the header, then
for each process, for each of its entries, push one table line. -/
def format_process_str (processes : List ProcessHugepageInfo) : String :=
  processes.foldl
    (fun out p =>
      p.entries.foldl (fun out e => out ++ process_row p.pid p.name e) out)
    header_row

/-- Correct decoding of one pool directory entry: the record's `total` and
`free` are the parsed page-count file contents and `size_kb` is the number
decoded from the directory name. -/
def PoolDecodes (e : PoolDirEntry) (info : HugePageSizeInfo) : Prop :=
  parse_hugepage_value e.nr_hugepages = some info.total ∧
  parse_hugepage_value e.free_hugepages = some info.free ∧
  ∃ seg, (split_on_char '-' e.file_name.toList).get? 1 = some seg ∧
    rust_parse_unsigned U64_BOUND (remove_kb seg) = some info.size_kb

/-- A pool directory whose name has no `-` separator. -/
def pool_dir_no_separator : PoolDirEntry := ⟨"hugepages", "1", "1"⟩

/-- A pool directory whose name has a separator but a non-numeric size
token. -/
def pool_dir_bad_name : PoolDirEntry := ⟨"hugepages-abckB", "1", "2"⟩

/-- A pool directory whose `nr_hugepages` file does not hold a number. -/
def pool_dir_bad_count : PoolDirEntry := ⟨"hugepages-2048kB", "x", "5"⟩

/-- A well-formed 2 MiB pool directory with 40 of 100 pages free. -/
def pool_dir_good : PoolDirEntry := ⟨"hugepages-2048kB", " 100 ", "40"⟩

/-- A smaps parser stub returning one base-page (4 kB) mapping. -/
def parse_smaps_low : String → Option (List SmapEntry) := fun _ => some [⟨4, 8, 8⟩]

/-- A smaps parser stub that always fails. -/
def parse_smaps_fail : String → Option (List SmapEntry) := fun _ => none

/-- A smaps parser stub returning one huge-page mapping. -/
def parse_smaps_huge : String → Option (List SmapEntry) :=
  fun _ => some [⟨2048, 4096, 0⟩]

/-- A `/proc` entry with a numeric name and readable files. -/
def proc_dir_numeric : ProcDirEntry := ⟨"7", some "Name:\tsh", some "text"⟩

/-- A `/proc` entry whose name is not a number (like `/proc/self`). -/
def proc_dir_nonnumeric : ProcDirEntry := ⟨"self", some "Name:\tsh", some "text"⟩

example : parse_hugepage_value " 100 " = some 100 := by decide
example : parse_hugepage_value "x" = none := by decide
example : parse_hugepage_value "+41" = some 41 := by decide
example : parse_hugepage_value "18446744073709551616" = none := by decide
example : (split_on_char '-' "hugepages-2048kB".toList).get? 1 =
    some "2048kB".toList := by decide
example : remove_kb "2048kB".toList = "2048".toList := by decide
example : parse_pool_entry ⟨"hugepages-2048kB", "100", "40"⟩ =
    .ok ⟨2048, 40, 100⟩ := by decide
example : parse_pool_entry ⟨"hugepages", "1", "1"⟩ = .crash := by decide
example : parse_pool_entry ⟨"hugepages-xkB", "1", "1"⟩ = .error := by decide
example : hugepage_size_display ⟨2048, 40, 100⟩ = some "2Mi - 40/100" := by
  decide
example : hugepage_size_display ⟨4, 0, 0⟩ = none := by decide
example :
    parse_process_info (fun _ => some [⟨2048, 4096, 0⟩, ⟨4, 8, 8⟩])
      ⟨"42", some "Name:\tbash\nPid:\t42", some "irrelevant"⟩ =
    some ⟨42, "bash", [⟨2048, 4096, 0⟩]⟩ := by decide
example :
    parse_process_info (fun _ => some [⟨4, 8, 8⟩])
      ⟨"42", some "Name:\tbash", some "irrelevant"⟩ = none := by decide
example :
    parse_process_info (fun _ => some [⟨2048, 4096, 0⟩])
      ⟨"self", some "Name:\tbash", some "irrelevant"⟩ = none := by decide
example :
    format_process_str [⟨42, "bash", [⟨2048, 4096, 0⟩]⟩] =
    header_row ++ process_row 42 "bash" ⟨2048, 4096, 0⟩ := by decide
example :
    process_row 42 "bash" ⟨2048, 4096, 0⟩ =
    "42       4096         0            bash        \n" := by decide
example :
    header_row =
    "PID      Private      Shared       Process     \n" := by decide

/-- C1: the spec requires pool-summary rendering to be a total function with
the raw KiB value as fallback ("the reference behavior's abrupt termination on
an unknown size is a defect"), but the code's `Display` impl reaches the
`panic!` arm for every size other than 2048 and 1048576: at `size_kb = 4` the
program aborts (`none` in the model) instead of rendering `"4 - 0/0"`, while
the two recognized sizes render as the claim describes. -/
theorem display_crashes_on_unknown_size :
    hugepage_size_display ⟨4, 0, 0⟩ = none ∧
    hugepage_size_display ⟨4, 0, 0⟩ ≠ some "4 - 0/0" ∧
    hugepage_size_display ⟨2048, 40, 100⟩ = some "2Mi - 40/100" ∧
    hugepage_size_display ⟨1048576, 3, 7⟩ = some "1Gi - 3/7" := by
  decide

/-- C2: the huge-page filter keeps exactly the entries whose
`kernel_page_size_in_kb` is at least the threshold constant (2024 in the
source), with the retained entries unchanged in their original relative order:
the result is a sublist of the input, membership is equivalent to membership
in the input plus the threshold test, and multiplicities of qualifying
entries are preserved exactly. -/
theorem hugepage_filter_exact (l : List SmapEntry) :
    List.Sublist (hugepage_filter l) l ∧
    (∀ e : SmapEntry, e ∈ hugepage_filter l ↔
      e ∈ l ∧ 2024 ≤ e.kernel_page_size_in_kb) ∧
    (∀ e : SmapEntry, (hugepage_filter l).count e =
      if 2024 ≤ e.kernel_page_size_in_kb then l.count e else 0) := by
  refine ⟨List.filter_sublist l, fun e => ?_, fun e => ?_⟩
  · simp [hugepage_filter]
  · by_cases h : 2024 ≤ e.kernel_page_size_in_kb
    · rw [if_pos h]
      exact List.count_filter (by simpa using h)
    · rw [if_neg h, List.count_eq_zero]
      simp [hugepage_filter, h]

/-- C9: the huge-page filter is idempotent — filtering an already-filtered
sequence yields exactly the same sequence as filtering once. -/
theorem hugepage_filter_idempotent (l : List SmapEntry) :
    hugepage_filter (hugepage_filter l) = hugepage_filter l := by
  simp [hugepage_filter, List.filter_filter]

/-- C10: a `/proc` entry whose file name does not parse as a `u32` is
rejected by `parse_process_info` before any of its files are consulted: the
result is `none` for every value of the `status` and `smaps` contents and for
every smaps parser. -/
theorem nonnumeric_name_skipped
    (parse_smap_entries : String → Option (List SmapEntry)) (p : ProcDirEntry)
    (h : rust_parse_unsigned U32_BOUND p.file_name.toList = none) :
    parse_process_info parse_smap_entries p = none := by
  unfold parse_process_info
  rw [h]

/-- Witness for C10 at the non-numeric name `self`, with readable files and a
parser that would have produced a qualifying mapping. -/
theorem nonnumeric_name_skipped_witness :
    parse_process_info parse_smaps_huge proc_dir_nonnumeric = none :=
  nonnumeric_name_skipped parse_smaps_huge proc_dir_nonnumeric (by decide)

/-- C3: when the filtered mapping list is empty `parse_process_info` produces
no report, and consequently every report it does produce carries a non-empty
`entries` list. -/
theorem report_entries_nonempty
    (parse_smap_entries : String → Option (List SmapEntry)) (p : ProcDirEntry) :
    (∀ s entries, p.smaps = some s → parse_smap_entries s = some entries →
      hugepage_filter entries = [] →
      parse_process_info parse_smap_entries p = none) ∧
    (∀ info, parse_process_info parse_smap_entries p = some info →
      info.entries ≠ []) := by
  constructor
  · intro s entries hs hp hf
    unfold parse_process_info
    cases hpid : rust_parse_unsigned U32_BOUND p.file_name.toList with
    | none => rfl
    | some pid =>
      cases hst : p.status with
      | none => rfl
      | some st => simp [hs, hp, hf]
  · intro info hinfo
    unfold parse_process_info at hinfo
    cases hpid : rust_parse_unsigned U32_BOUND p.file_name.toList with
    | none => simp only [hpid] at hinfo; exact Option.noConfusion hinfo
    | some pid =>
      simp only [hpid] at hinfo
      cases hst : p.status with
      | none => simp only [hst] at hinfo; exact Option.noConfusion hinfo
      | some st =>
        simp only [hst] at hinfo
        cases hsm : p.smaps with
        | none => simp only [hsm] at hinfo; exact Option.noConfusion hinfo
        | some contents =>
          simp only [hsm] at hinfo
          cases hpe : parse_smap_entries contents with
          | none => simp only [hpe] at hinfo; exact Option.noConfusion hinfo
          | some smap_entries =>
            simp only [hpe] at hinfo
            by_cases hemp : (hugepage_filter smap_entries).isEmpty = true
            · simp only [hemp, if_true] at hinfo
              exact Option.noConfusion hinfo
            · simp only [Bool.not_eq_true] at hemp
              simp only [hemp, Bool.false_eq_true, if_false] at hinfo
              injection hinfo with hinfo
              subst hinfo
              show hugepage_filter smap_entries ≠ []
              intro hcontra
              rw [hcontra] at hemp
              simp at hemp

/-- Witness for C3: a process whose only mapping uses the base 4 kB page size
is filtered to an empty list and produces no report. -/
theorem report_entries_nonempty_witness :
    parse_process_info parse_smaps_low proc_dir_numeric = none :=
  (report_entries_nonempty parse_smaps_low proc_dir_numeric).1
    "text" [⟨4, 8, 8⟩] rfl rfl (by decide)

/-- C8: a process whose `status` or `smaps` file cannot be read, or whose
smaps text fails to parse, is skipped by itself: `parse_process_info` returns
`none` for it, and the run over the surrounding entries produces exactly the
reports it would produce without that entry — `parse_process_hugepages` is a
total function, so a per-process failure never aborts the whole run. -/
theorem process_failure_skipped
    (parse_smap_entries : String → Option (List SmapEntry))
    (l1 l2 : List ProcDirEntry) (p : ProcDirEntry)
    (h : p.status = none ∨ p.smaps = none ∨
      ∃ s, p.smaps = some s ∧ parse_smap_entries s = none) :
    parse_process_info parse_smap_entries p = none ∧
    parse_process_hugepages parse_smap_entries (l1 ++ p :: l2) =
      parse_process_hugepages parse_smap_entries l1 ++
        parse_process_hugepages parse_smap_entries l2 := by
  have hnone : parse_process_info parse_smap_entries p = none := by
    unfold parse_process_info
    cases hpid : rust_parse_unsigned U32_BOUND p.file_name.toList with
    | none => rfl
    | some pid =>
      rcases h with h | h | ⟨s, hs, hps⟩
      · simp [h]
      · cases hst : p.status with
        | none => rfl
        | some st => simp [h]
      · cases hst : p.status with
        | none => rfl
        | some st => simp [hs, hps]
  refine ⟨hnone, ?_⟩
  unfold parse_process_hugepages
  rw [List.filterMap_append]
  simp [List.filterMap_cons, hnone]

/-- Witness for C8: an unparseable smaps text makes the entry contribute
nothing while the (here empty) rest of the run is unaffected. -/
theorem process_failure_skipped_witness :
    parse_process_info parse_smaps_fail proc_dir_numeric = none ∧
    parse_process_hugepages parse_smaps_fail ([] ++ proc_dir_numeric :: []) =
      parse_process_hugepages parse_smaps_fail [] ++
        parse_process_hugepages parse_smaps_fail [] :=
  process_failure_skipped parse_smaps_fail [] [] proc_dir_numeric
    (Or.inr (Or.inr ⟨"text", rfl, rfl⟩))

/-- A pool entry parses to `ok info` exactly when its two page-count files and
its directory-name size token decode to `info`'s fields. -/
theorem parse_pool_entry_ok_iff (e : PoolDirEntry) (info : HugePageSizeInfo) :
    parse_pool_entry e = RunResult.ok info ↔ PoolDecodes e info := by
  obtain ⟨sk, fr, tt⟩ := info
  unfold parse_pool_entry PoolDecodes
  cases ht : parse_hugepage_value e.nr_hugepages with
  | none => simp
  | some t =>
    dsimp only
    cases hf : parse_hugepage_value e.free_hugepages with
    | none => simp
    | some f =>
      dsimp only
      cases hs : (split_on_char '-' e.file_name.toList).get? 1 with
      | none => simp
      | some seg =>
        dsimp only
        cases hp : rust_parse_unsigned U64_BOUND (remove_kb seg) with
        | none => simp [hp]
        | some size =>
          simp [hp]
          tauto

/-- If the whole pool read succeeds then every directory entry parsed
successfully. -/
theorem parse_hugepage_ok_mem {entries : List PoolDirEntry}
    {l : List HugePageSizeInfo} (h : parse_hugepage entries = RunResult.ok l) :
    ∀ e ∈ entries, ∃ info, parse_pool_entry e = RunResult.ok info := by
  induction entries generalizing l with
  | nil => intro e he; cases he
  | cons x xs ih =>
    intro e he
    simp only [parse_hugepage] at h
    cases hx : parse_pool_entry x with
    | crash => rw [hx] at h; exact RunResult.noConfusion h
    | error => rw [hx] at h; exact RunResult.noConfusion h
    | ok info =>
      rw [hx] at h
      cases hrest : parse_hugepage xs with
      | crash => rw [hrest] at h; exact RunResult.noConfusion h
      | error => rw [hrest] at h; exact RunResult.noConfusion h
      | ok infos =>
        rcases List.mem_cons.mp he with rfl | hmem
        · exact ⟨info, hx⟩
        · exact ih hrest e hmem

/-- C4: a pool subdirectory whose (trimmed) page-count file contents do not
parse as a non-negative integer makes that entry parse to an error, and the
whole pool read then yields no list at all — no partial result is
observable. -/
theorem pool_bad_count_aborts (entries : List PoolDirEntry) (e : PoolDirEntry)
    (he : e ∈ entries)
    (hbad : parse_hugepage_value e.nr_hugepages = none ∨
      parse_hugepage_value e.free_hugepages = none) :
    parse_pool_entry e = RunResult.error ∧
    ∀ l, parse_hugepage entries ≠ RunResult.ok l := by
  have hentry : parse_pool_entry e = RunResult.error := by
    rcases hbad with h | h
    · simp [parse_pool_entry, h]
    · cases hnr : parse_hugepage_value e.nr_hugepages with
      | none => simp [parse_pool_entry, hnr]
      | some t => simp [parse_pool_entry, hnr, h]
  refine ⟨hentry, fun l hl => ?_⟩
  obtain ⟨info, hinfo⟩ := parse_hugepage_ok_mem hl e he
  rw [hentry] at hinfo
  exact RunResult.noConfusion hinfo

/-- Witness for C4: one directory with a non-numeric `nr_hugepages` file. -/
theorem pool_bad_count_aborts_witness :
    parse_pool_entry pool_dir_bad_count = RunResult.error ∧
    ∀ l, parse_hugepage [pool_dir_bad_count] ≠ RunResult.ok l :=
  pool_bad_count_aborts [pool_dir_bad_count] pool_dir_bad_count
    (List.mem_singleton.mpr rfl) (Or.inl (by decide))

/-- C5 counterexample: for the directory name `hugepages` (no `-` separator,
hence no numeric-size token) the pool reader does not return an error value —
it crashes: the `unwrap` on `split("-").nth(1)` panics, modelled as
`RunResult.crash`, distinct from `RunResult.error`. -/
theorem pool_name_without_separator_crashes :
    parse_hugepage [pool_dir_no_separator] = RunResult.crash ∧
    parse_hugepage [pool_dir_no_separator] ≠ RunResult.error := by
  decide

/-- C5 amended: for a pool subdirectory whose page-count files parse, if the
directory name contains the separator but its second segment (with the unit
suffix removed) does not parse as a `u64`, the reader fails with a returned
data-format error; if the name lacks the separator entirely, the reader
instead panics (aborts the process) rather than returning an error value. -/
theorem pool_bad_name_outcomes (e : PoolDirEntry)
    (ht : parse_hugepage_value e.nr_hugepages ≠ none)
    (hf : parse_hugepage_value e.free_hugepages ≠ none) :
    ((split_on_char '-' e.file_name.toList).get? 1 = none →
      parse_pool_entry e = RunResult.crash) ∧
    (∀ seg, (split_on_char '-' e.file_name.toList).get? 1 = some seg →
      rust_parse_unsigned U64_BOUND (remove_kb seg) = none →
      parse_pool_entry e = RunResult.error) := by
  obtain ⟨t, ht'⟩ := Option.ne_none_iff_exists'.mp ht
  obtain ⟨f, hf'⟩ := Option.ne_none_iff_exists'.mp hf
  constructor
  · intro hn
    rw [List.get?_eq_getElem?] at hn
    simp only [String.toList] at hn
    simp [parse_pool_entry, ht', hf', hn]
  · intro seg hseg hparse
    rw [List.get?_eq_getElem?] at hseg
    simp only [String.toList] at hseg
    simp [parse_pool_entry, ht', hf', hseg, hparse]

/-- Witness for the amended C5: the name `hugepages-abckB` has the separator
but a non-numeric size token, and parses to a returned error. -/
theorem pool_bad_name_outcomes_witness :
    parse_pool_entry pool_dir_bad_name = RunResult.error :=
  (pool_bad_name_outcomes pool_dir_bad_name (by decide) (by decide)).2
    "abckB".toList (by decide) (by decide)

/-- C7: when every pool subdirectory has parseable page-count files and a
decodable directory-name size, the pool read succeeds with exactly one record
per subdirectory, in order, whose `total`, `free` and `size_kb` fields are
precisely the values parsed from `nr_hugepages`, `free_hugepages` and the
name's size token (the `PoolDecodes` relation). -/
theorem parse_hugepage_roundtrip (entries : List PoolDirEntry)
    (h : ∀ e ∈ entries, ∃ info, PoolDecodes e info) :
    ∃ l, parse_hugepage entries = RunResult.ok l ∧
      l.length = entries.length ∧ List.Forall₂ PoolDecodes entries l := by
  induction entries with
  | nil => exact ⟨[], rfl, rfl, List.Forall₂.nil⟩
  | cons e rest ih =>
    obtain ⟨info, hinfo⟩ := h e (List.mem_cons_self e rest)
    obtain ⟨l, hl, hlen, hfa⟩ := ih (fun x hx => h x (List.mem_cons_of_mem e hx))
    refine ⟨info :: l, ?_, by simp [hlen], List.Forall₂.cons hinfo hfa⟩
    simp only [parse_hugepage, (parse_pool_entry_ok_iff e info).mpr hinfo, hl]

/-- Witness for C7: a single well-formed 2 MiB pool directory round-trips. -/
theorem parse_hugepage_roundtrip_witness :
    ∃ l, parse_hugepage [pool_dir_good] = RunResult.ok l ∧
      l.length = [pool_dir_good].length ∧
      List.Forall₂ PoolDecodes [pool_dir_good] l :=
  parse_hugepage_roundtrip [pool_dir_good] (by
    intro e he
    rw [List.mem_singleton] at he
    subst he
    exact ⟨⟨2048, 40, 100⟩, by decide, by decide, "2048kB".toList,
      by decide, by decide⟩)

/-- Folding string concatenation from an initial accumulator is the
accumulator followed by the join of the list. -/
theorem foldl_append_eq (l : List String) (init : String) :
    l.foldl (fun r s => r ++ s) init = init ++ String.join l := by
  induction l generalizing init with
  | nil =>
    show init = init ++ String.join []
    simp [String.join]
  | cons s rest ih =>
    show rest.foldl (fun r t => r ++ t) (init ++ s) = init ++ String.join (s :: rest)
    rw [ih (init ++ s)]
    have h2 : String.join (s :: rest) = s ++ String.join rest := by
      show rest.foldl (fun r t => r ++ t) ("" ++ s) = s ++ String.join rest
      rw [ih ("" ++ s)]
      simp
    rw [h2, String.append_assoc]

/-- Join of a cons. -/
theorem string_join_cons (s : String) (l : List String) :
    String.join (s :: l) = s ++ String.join l := by
  show l.foldl (fun r t => r ++ t) ("" ++ s) = s ++ String.join l
  rw [foldl_append_eq]
  simp

/-- Appending the rendering of each element in turn appends the join of the
rendered list. -/
theorem foldl_rows {α : Type} (f : α → String) (l : List α) (out : String) :
    l.foldl (fun acc e => acc ++ f e) out = out ++ String.join (l.map f) := by
  induction l generalizing out with
  | nil => simp [String.join]
  | cons e rest ih =>
    simp only [List.foldl_cons, List.map_cons]
    rw [ih, string_join_cons, String.append_assoc]

/-- The nested process/entry fold of `format_process_str` appends, per
process, the join of that process's rendered rows. -/
theorem format_fold (processes : List ProcessHugepageInfo) (out : String) :
    processes.foldl
      (fun out p =>
        p.entries.foldl (fun o e => o ++ process_row p.pid p.name e) out)
      out =
    out ++ String.join (processes.map
      (fun p => String.join (p.entries.map (process_row p.pid p.name)))) := by
  induction processes generalizing out with
  | nil => simp [String.join]
  | cons p rest ih =>
    simp only [List.foldl_cons, List.map_cons]
    rw [foldl_rows, ih, string_join_cons, String.append_assoc]

/-- C6: the per-process table is the four-column header row followed by, for
each process in input order, one rendered row per mapping entry in input
order — a process with N entries contributes exactly N rows (`List.map` over
its entries), each built by `process_row` from that process's pid and display
name together with the entry's private and shared huge-TLB counters. -/
theorem format_process_str_rows (processes : List ProcessHugepageInfo) :
    format_process_str processes =
      header_row ++ String.join (processes.map
        (fun p => String.join (p.entries.map (process_row p.pid p.name)))) := by
  unfold format_process_str
  exact format_fold processes header_row

end Hugetop
